import Mathlib

/-!
Verification of the FarmRPG Chat Enhancer userscript
(src/farmrpg-chat-enhancer.user.js) against its natural-language
specification.

The script is shallowly embedded: DOM elements become a `Node` tree
carrying exactly the attributes the script reads or writes (tag, alt,
href, class list, the style properties the handlers set, and text
content), JS strings become Lean `String`s, JS `Set`s of fingerprints
become insertion-ordered duplicate-free `List String`s, and the global
`state` object becomes explicit state records.  Code that can throw is
embedded in `Except`; code that cannot is embedded as total functions
whose guards mirror the source's guards.
-/

namespace FarmChat

/-- Attributes of a DOM element that the script reads or writes.
`ownText` stands for the element's direct text-node children; the
style fields are the only CSS properties any handler touches. -/
structure NodeData where
  tag : String := ""
  alt : String := ""
  href : String := ""
  classes : List String := []
  ownText : String := ""
  styleBorder : String := ""
  styleBorderRadius : String := ""
  stylePadding : String := ""
  styleBackgroundColor : String := ""
  styleBorderLeft : String := ""
  stylePaddingLeft : String := ""
  stylePosition : String := ""
  styleOpacity : String := ""
  deriving Repr, DecidableEq

/-- A DOM element: its attribute record plus its element children
(`.children` in the source). -/
inductive Node : Type where
  | mk (data : NodeData) (kids : List Node)
  deriving Repr

/-- The attribute record of an element. -/
def Node.data : Node → NodeData
  | .mk d _ => d

/-- The element children of an element (JS `.children`). -/
def Node.kids : Node → List Node
  | .mk _ ks => ks

/-- The element's tag name. -/
def Node.tag (n : Node) : String := n.data.tag

/-- The element's class list (JS `classList`). -/
def Node.classes (n : Node) : List String := n.data.classes

mutual
/-- JS `textContent`: the element's own text followed by the text of
its children, in document order. -/
def Node.textContent : Node → String
  | .mk d kids => d.ownText ++ textContentList kids

/-- `textContent` of a list of sibling elements, concatenated. -/
def textContentList : List Node → String
  | [] => ""
  | n :: rest => n.textContent ++ textContentList rest
end

/-! ## Host string operations

The script leans on JS string primitives (`trim`, `toLowerCase`,
`startsWith`, `endsWith`, `slice`, `includes`, global single-character
`replace`).  They are embedded here over `List Char` so that every
definition evaluates by kernel reduction; the JS semantics are the
usual ones (ASCII case mapping suffices for this script's inputs). -/

/-- Does the second character list start with the first? -/
def charsStartWith : List Char → List Char → Bool
  | [], _ => true
  | _ :: _, [] => false
  | a :: as, b :: bs => a == b && charsStartWith as bs

/-- Does the second character list contain the first as a contiguous
run (at any position, including the end)? -/
def charsContain (sub : List Char) : List Char → Bool
  | [] => charsStartWith sub []
  | b :: bs => charsStartWith sub (b :: bs) || charsContain sub bs

/-- JS `String.prototype.trim`: strip whitespace from both ends. -/
def jsTrim (s : String) : String :=
  ⟨((s.data.dropWhile Char.isWhitespace).reverse.dropWhile Char.isWhitespace).reverse⟩

/-- JS `String.prototype.toLowerCase` (character-wise). -/
def jsToLower (s : String) : String :=
  ⟨s.data.map Char.toLower⟩

/-- JS `String.prototype.startsWith`. -/
def jsStartsWith (s pat : String) : Bool :=
  charsStartWith pat.data s.data

/-- JS `String.prototype.endsWith`. -/
def jsEndsWith (s pat : String) : Bool :=
  charsStartWith pat.data.reverse s.data.reverse

/-- JS `s.slice(n)`: drop the first `n` characters. -/
def jsDrop (s : String) (n : Nat) : String :=
  ⟨s.data.drop n⟩

/-- JS `s.slice(0, -n)`: drop the last `n` characters. -/
def jsDropRight (s : String) (n : Nat) : String :=
  ⟨s.data.take (s.data.length - n)⟩

/-- JS `s.substring(0, n)`: take the first `n` characters. -/
def jsTake (s : String) (n : Nat) : String :=
  ⟨s.data.take n⟩

/-- JS `s.replace(/\+/g, " ")`: replace every `+` with a space. -/
def jsPlusToSpace (s : String) : String :=
  ⟨s.data.map (fun c => if c == '+' then ' ' else c)⟩

/-- JS `s.replace(/[()]/g, "")`: delete every parenthesis. -/
def jsStripParens (s : String) : String :=
  ⟨s.data.filter (fun c => !(c == '(' || c == ')'))⟩

/-- JS `String.prototype.includes`: substring containment (the empty
needle is contained in every string). -/
def jsIncludes (s sub : String) : Bool :=
  charsContain sub.data s.data

/-- JS truthiness of a nullable string: `null` and `""` are falsy. -/
def strTruthy : Option String → Bool
  | none => false
  | some s => s ≠ ""

/-! ## Utility functions (source lines 83-98) -/

/-- `sanitizeUsername` (source lines 83-91): trim, strip a leading `@`
and a trailing `:`.  A JS-falsy argument (null or the empty string) is
mapped to the empty string by the `if (!username) return ""` guard. -/
def sanitizeUsername (username : String) : String :=
  if username = "" then "" else
  let clean := jsTrim username
  let clean := if jsStartsWith clean "@" then jsDrop clean 1 else clean
  let clean := if jsEndsWith clean ":" then jsDropRight clean 1 else clean
  clean

/-- `normalizeUsername` (source lines 96-98): sanitize, lower-case,
then replace every `+` with a space. -/
def normalizeUsername (username : String) : String :=
  jsPlusToSpace (jsToLower (sanitizeUsername username))

/-! ## Fingerprint engine (source lines 188-196) -/

/-- The timestamp text the fingerprint reads:
`messageElement.children[0]?.textContent || ""`. -/
def msgTimestampText (m : Node) : String :=
  match m.kids[0]? with
  | none => ""
  | some c => c.textContent

/-- The body text the fingerprint reads:
`children[5]?.textContent || children[5]?.innerText || ""`.
For the element trees of this model `innerText` carries the same text
as `textContent` (both are empty exactly when the subtree holds no
text), so the chain collapses to `textContent` of child 5 when that
child exists and `""` otherwise. -/
def msgBodyText (m : Node) : String :=
  match m.kids[5]? with
  | none => ""
  | some c => c.textContent

/-- `getMessageFingerprint` (source lines 188-196):
the template string `timestamp ++ ":" ++ text`, trimmed. -/
def getMessageFingerprint (m : Node) : String :=
  jsTrim (msgTimestampText m ++ ":" ++ msgBodyText m)

/-! ## Bounded history sets (source lines 287-296 and 584-593)

A JS `Set` of fingerprints is modelled as an insertion-ordered list
without duplicates.  Both the mentions seen-set and the keyword-match
set use the same pattern: membership check, `add`, then trim to the
last `MAX_SEEN_MESSAGES` entries when over capacity. -/

/-- `CONFIG.MAX_SEEN_MESSAGES` (source line 45). -/
def MAX_SEEN_MESSAGES : Nat := 100

/-- `Set.add`: append, a no-op when the element is already present. -/
def seenAdd (s : List String) (fp : String) : List String :=
  if fp ∈ s then s else s ++ [fp]

/-- The trim step: `if (set.size > MAX) set = new Set(Array.from(set).slice(-MAX))`
(source lines 293-296 and 590-593).  `slice(-MAX)` keeps the last
`MAX` elements in their original order. -/
def trimSeen (s : List String) : List String :=
  if s.length > MAX_SEEN_MESSAGES then s.drop (s.length - MAX_SEEN_MESSAGES) else s

/-- One complete insertion into a bounded history set, as performed by
`checkForMentions` (lines 287-296) and `checkForKeywords` (lines
584-593): skip if present, else add and trim. -/
def seenInsert (s : List String) (fp : String) : List String :=
  if fp ∈ s then s else trimSeen (s ++ [fp])

/-! ## DOM helpers shared by the handlers -/

/-- Replace the attribute record of an element. -/
def Node.withData (n : Node) (d : NodeData) : Node := .mk d n.kids

/-- Replace the child list of an element. -/
def Node.withKids (n : Node) (ks : List Node) : Node := .mk n.data ks

mutual
/-- Depth-first pre-order search of an element and its subtree. -/
def findFirstNode (p : Node → Bool) : Node → Option Node
  | .mk d kids =>
    if p (.mk d kids) then some (.mk d kids) else findFirstList p kids

/-- Depth-first pre-order search of a list of sibling subtrees. -/
def findFirstList (p : Node → Bool) : List Node → Option Node
  | [] => none
  | n :: rest =>
    match findFirstNode p n with
    | some r => some r
    | none => findFirstList p rest
end

/-- JS `element.querySelector`: first matching descendant (the element
itself is not a candidate). -/
def querySelectorDesc (p : Node → Bool) (n : Node) : Option Node :=
  findFirstList p n.kids

/-- `classList.contains`. -/
def hasClass (c : String) (n : Node) : Bool :=
  n.classes.contains c

/-- `classList.add`: append the class if it is not already present. -/
def classListAdd (n : Node) (c : String) : Node :=
  if n.classes.contains c then n
  else n.withData { n.data with classes := n.data.classes ++ [c] }

/-- `msg.children[2]?.textContent || "Someone"` (source lines 299 and
596): the author text used in notifications. -/
def authorText (msg : Node) : String :=
  match msg.kids[2]? with
  | none => "Someone"
  | some a => if a.textContent == "" then "Someone" else a.textContent

/-! ## Feature: message highlighter (source lines 314-338) -/

/-- `CONFIG.HIGHLIGHT_BORDER` (source line 46). -/
def CONFIG_HIGHLIGHT_BORDER : String := "3px solid #fb7a24"

/-- The selector `a[href^="profile.php?user_name="]` (source line 321). -/
def isProfileLink (n : Node) : Bool :=
  n.tag == "a" && jsStartsWith n.data.href "profile.php?user_name="

/-- The regex `href.match(/user_name=(.+)$/)` (source line 326):
everything after the first occurrence of `user_name=`, provided it is
non-empty (hrefs contain no newline, so `.` behaves as any-char).
Returns the remainder of the list after the first occurrence of `sub`. -/
def charsAfterSub (sub : List Char) : List Char → Option (List Char)
  | [] => if charsStartWith sub [] then some [] else none
  | c :: cs =>
    if charsStartWith sub (c :: cs) then some ((c :: cs).drop sub.length)
    else charsAfterSub sub cs

/-- The captured group of `href.match(/user_name=(.+)$/)`. -/
def jsMatchUserName (href : String) : Option String :=
  match charsAfterSub "user_name=".data href.data with
  | none => none
  | some rest => if rest.isEmpty then none else some ⟨rest⟩

/-- The own-message styling applied at source lines 333-335. -/
def setHighlightStyle (msg : Node) : Node :=
  msg.withData { msg.data with
    styleBorder := CONFIG_HIGHLIGHT_BORDER,
    styleBorderRadius := "6px",
    stylePadding := "2px" }

/-- `highlightOwnMessages` (source lines 314-338): for each message,
find the profile link, extract and normalize the raw identity, and on
equality with the normalized stored identity apply the border. -/
def highlightOwnMessages (featureOn : Bool) (username : Option String)
    (msgs : List Node) : List Node :=
  if !featureOn || !strTruthy username then msgs else
  let normalizedUsername := normalizeUsername (username.getD "")
  msgs.map (fun msg =>
    match querySelectorDesc isProfileLink msg with
    | none => msg
    | some profileLink =>
      match jsMatchUserName profileLink.data.href with
      | none => msg
      | some raw =>
        if normalizeUsername raw == normalizedUsername then setHighlightStyle msg
        else msg)

/-! ## Feature: mention watcher (source lines 269-308) -/

/-- The per-batch loop of `checkForMentions` (source lines 274-307),
mirrored message by message.  Returns the updated seen-set and the
emitted notifications `(title, body)` in batch order. -/
def checkForMentionsAux (uname : String) :
    List Node → List String → List String × List (String × String)
  | [], seen => (seen, [])
  | msg :: rest, seen =>
    match msg.kids[5]? with
    | none => checkForMentionsAux uname rest seen
    | some tc =>
      let text := tc.textContent
      if text == "" then checkForMentionsAux uname rest seen
      else if !(jsIncludes (jsToLower text) uname) then
        checkForMentionsAux uname rest seen
      else
        let fp := getMessageFingerprint msg
        if fp ∈ seen then checkForMentionsAux uname rest seen
        else
          let seen' := trimSeen (seenAdd seen fp)
          let r := checkForMentionsAux uname rest seen'
          (r.1, ("You were mentioned!",
                 authorText msg ++ ": " ++ jsTake text 100) :: r.2)

/-- `checkForMentions` (source lines 269-308), with the guard
`if (!state.features.mentions || !state.username) return;` and the
case-folded username. -/
def checkForMentions (featureOn : Bool) (username : Option String)
    (msgs : List Node) (seen : List String) :
    List String × List (String × String) :=
  if !featureOn || !strTruthy username then (seen, []) else
  checkForMentionsAux (jsToLower (username.getD "")) msgs seen

/-! ## Feature: keyword watcher (source lines 230-263 and 570-642)

`extractItems` dereferences `textContainer.children`, which throws in
JS when the argument is undefined; that throw point is made explicit
with `Except`. -/

/-- `extractItems` (source lines 230-243): the alt texts of images
wrapped in links among the container's element children. -/
def extractItems (textContainer : Option Node) : Except Unit (List String) :=
  match textContainer with
  | none => .error ()
  | some tc =>
    .ok (tc.kids.foldl (fun items element =>
      if element.tag == "a" then
        match element.kids with
        | c :: _ => if c.tag == "img" then items ++ [c.data.alt] else items
        | [] => items
      else items) [])

/-- The nested loops of `matchesKeywords` (source lines 253-260): the
first keyword (in set iteration order) matching the first matching
item name wins. -/
def findKeywordForItems (keywords : List String) : List String → Option String
  | [] => none
  | item :: rest =>
    match keywords.find? (fun keyword => jsIncludes (jsToLower item) keyword) with
    | some kw => some kw
    | none => findKeywordForItems keywords rest

/-- `matchesKeywords` (source lines 248-263). -/
def matchesKeywords (keywords : List String) (textContainer : Option Node) :
    Except Unit (Option String) :=
  if keywords.length == 0 then .ok none else
  match extractItems textContainer with
  | .error e => .error e
  | .ok items => .ok (findKeywordForItems keywords items)

/-- `CONFIG.KEYWORD_HIGHLIGHT_COLOR` (source line 54). -/
def CONFIG_KEYWORD_HIGHLIGHT_COLOR : String := "#a855f7"

/-- `CONFIG.KEYWORD_HIGHLIGHT_BG` (source line 55). -/
def CONFIG_KEYWORD_HIGHLIGHT_BG : String := "rgba(168, 85, 247, 0.15)"

/-- The badge created at source lines 623-635 (the source file stores
the bell glyph in mangled encoding; the exact text is irrelevant to
the theorems below). -/
def keywordBadge (keyword : String) : Node :=
  .mk { tag := "span", classes := ["keyword-badge"], ownText := "bell " ++ keyword } []

/-- `applyKeywordHighlight` (source lines 613-642): skip entirely when
the message carries pin styling; otherwise add the class, the border
and background styling, and append the badge to the author element at
child position 2 when it exists. -/
def applyKeywordHighlight (messageElement : Node) (keyword : String) : Node :=
  if messageElement.classes.contains "chat-marked" then messageElement else
  let m := classListAdd messageElement "chat-keyword-match"
  let m := m.withData { m.data with
    styleBorderLeft := "4px solid " ++ CONFIG_KEYWORD_HIGHLIGHT_COLOR,
    styleBackgroundColor := CONFIG_KEYWORD_HIGHLIGHT_BG,
    stylePaddingLeft := "8px" }
  match m.kids[2]? with
  | none => m
  | some usernameElement =>
    m.withKids (m.kids.set 2
      (usernameElement.withKids (usernameElement.kids ++ [keywordBadge keyword])))

/-- The per-batch loop of `checkForKeywords` (source lines 573-607).
Returns the updated match set, the (possibly restyled) messages in
order, and the emitted notifications.  The author text is read before
the badge is appended, as in the source. -/
def checkForKeywordsAux (keywords : List String) :
    List Node → List String →
    Except Unit (List String × List Node × List (String × String))
  | [], kwSeen => .ok (kwSeen, [], [])
  | msg :: rest, kwSeen =>
    match msg.kids[5]? with
    | none =>
      match checkForKeywordsAux keywords rest kwSeen with
      | .error e => .error e
      | .ok (m, ms, ns) => .ok (m, msg :: ms, ns)
    | some textContainer =>
      match matchesKeywords keywords (some textContainer) with
      | .error e => .error e
      | .ok none =>
        match checkForKeywordsAux keywords rest kwSeen with
        | .error e => .error e
        | .ok (m, ms, ns) => .ok (m, msg :: ms, ns)
      | .ok (some matchedKeyword) =>
        let fp := getMessageFingerprint msg
        if fp ∈ kwSeen then
          match checkForKeywordsAux keywords rest kwSeen with
          | .error e => .error e
          | .ok (m, ms, ns) => .ok (m, msg :: ms, ns)
        else
          let kwSeen' := trimSeen (seenAdd kwSeen fp)
          let msg' := applyKeywordHighlight msg matchedKeyword
          match checkForKeywordsAux keywords rest kwSeen' with
          | .error e => .error e
          | .ok (m, ms, ns) =>
            .ok (m, msg' :: ms,
                 ("Keyword Alert: \"" ++ matchedKeyword ++ "\"", authorText msg) :: ns)

/-- `checkForKeywords` (source lines 570-608), with the guard
`if (!state.features.keywords || state.keywords.size === 0) return;`. -/
def checkForKeywords (featureOn : Bool) (keywords : List String)
    (msgs : List Node) (kwSeen : List String) :
    Except Unit (List String × List Node × List (String × String)) :=
  if !featureOn || keywords.length == 0 then .ok (kwSeen, msgs, []) else
  checkForKeywordsAux keywords msgs kwSeen

/-! ## Feature: attention markers / pins (source lines 418-552) -/

/-- `CONFIG.MARKER_BORDER` (source line 50). -/
def CONFIG_MARKER_BORDER : String := "3px solid #ffd700"

/-- `CONFIG.MARKER_BG` (source line 51). -/
def CONFIG_MARKER_BG : String := "rgba(255, 215, 0, 0.1)"

/-- The pin button created by `createMarkerButton` (source lines
418-461); only its class, text and opacity matter to the model (the
source stores the pin glyph in mangled encoding). -/
def markerButton (opacity : String) : Node :=
  .mk { tag := "button", classes := ["chat-marker-btn"], ownText := "pin",
        styleOpacity := opacity } []

/-- `applyMarkerStyle` (source lines 487-494). -/
def applyMarkerStyle (messageElement : Node) : Node :=
  let m := classListAdd messageElement "chat-marked"
  m.withData { m.data with
    styleBackgroundColor := CONFIG_MARKER_BG,
    styleBorder := CONFIG_MARKER_BORDER,
    styleBorderRadius := "6px",
    stylePadding := "4px",
    stylePosition := "relative" }

/-- The per-message body of `addMarkerButtons` (source lines 534-551):
skip when a button is already present, else set relative positioning,
append the button, and restore marker styling when the fingerprint is
pinned.  As in the source, the fingerprint for the restore check is
computed after the button has been appended. -/
def addMarkerButtonTo (marked : List String) (msg : Node) : Node :=
  if (querySelectorDesc (hasClass "chat-marker-btn") msg).isSome then msg else
  let m := msg.withData { msg.data with stylePosition := "relative" }
  let m := m.withKids (m.kids ++ [markerButton "0.6"])
  let fp := getMessageFingerprint m
  if marked.contains fp then
    let m := applyMarkerStyle m
    m.withKids (m.kids.dropLast ++ [markerButton "1"])
  else m

/-- `addMarkerButtons` (source lines 531-552). -/
def addMarkerButtons (featureOn : Bool) (marked : List String)
    (msgs : List Node) : List Node :=
  if !featureOn then msgs else msgs.map (addMarkerButtonTo marked)

/-! ## Feature: session separator (source lines 344-409)

The chat container's child list is modelled as a list of `CNode`:
either one of the separator `div`s the script inserts (class
`chat-separator`) or a message element.  Messages carry a `Nat`
identity standing for JS element identity, plus their element tree. -/

/-- A child of the chat container: a script-inserted separator, or a
message element (with an identity for `insertBefore` targeting). -/
inductive CNode : Type where
  | sep : CNode
  | msg (id : Nat) (node : Node) : CNode
  deriving Repr

/-- Is this container child one of the inserted separators? -/
def CNode.isSep : CNode → Bool
  | .sep => true
  | .msg _ _ => false

/-- `insertSeparator` (source lines 387-409): walk the container to
the message with the given identity; if the element immediately before
it is already a separator do nothing, otherwise insert a separator
immediately before it.  `prevIsSep` tracks whether the previous
sibling is a separator (`previousElementSibling` check, false at the
start of the container where the previous sibling is null). -/
def insertSepAux (tid : Nat) : Bool → List CNode → List CNode
  | _, [] => []
  | prevIsSep, .msg i n :: rest =>
    if i == tid then
      if prevIsSep then .msg i n :: rest
      else .sep :: .msg i n :: rest
    else .msg i n :: insertSepAux tid false rest
  | _, .sep :: rest => .sep :: insertSepAux tid true rest

/-- `insertSeparator` applied to the container: insert before the
message with identity `tid` unless a separator already immediately
precedes it. -/
def insertSeparatorBefore (dom : List CNode) (tid : Nat) : List CNode :=
  insertSepAux tid false dom

/-- The session-separator state: the feature toggle
`state.features.separator` and `state.lastKnownMessage`. -/
structure SepState where
  separatorOn : Bool
  lastKnownMessage : Option String
  deriving Repr, DecidableEq

/-- `checkForSessionChange` (source lines 344-385).  `batch` is the
ordered list of newly inserted message elements (identity plus element
tree); `hasRemovedNodes` says whether some mutation in the batch
carried removed nodes.  Returns the updated state and container. -/
def checkForSessionChange (st : SepState) (dom : List CNode)
    (batch : List (Nat × Node)) (hasRemovedNodes : Bool) :
    SepState × List CNode :=
  if !st.separatorOn then (st, dom) else
  if !hasRemovedNodes then
    match batch.head? with
    | some (_, n) =>
      ({ st with lastKnownMessage := some (getMessageFingerprint n) }, dom)
    | none => (st, dom)
  else
    match st.lastKnownMessage with
    | none =>
      match batch.head? with
      | some (_, n) =>
        ({ st with lastKnownMessage := some (getMessageFingerprint n) }, dom)
      | none => (st, dom)
    | some lk =>
      let dom' :=
        match batch.find? (fun p => getMessageFingerprint p.2 == lk) with
        | some (tid, _) => insertSeparatorBefore dom tid
        | none => dom
      match batch.head? with
      | some (_, n) =>
        ({ st with lastKnownMessage := some (getMessageFingerprint n) }, dom')
      | none => (st, dom')

/-- `stopSeparator` (source lines 807-815): clear the feature flag and
remove every inserted separator from the container.  The recorded
`lastKnownMessage` is not touched. -/
def stopSeparator (st : SepState) (dom : List CNode) :
    SepState × List CNode :=
  ({ st with separatorOn := false }, dom.filter (fun c => !c.isSep))

/-- The number of separators currently in the container. -/
def countSep (dom : List CNode) : Nat :=
  (dom.filter CNode.isSep).length

/-- The message elements of the container, in order (identity and
tree), used to state that separator insertion leaves every message
untouched. -/
def msgNodes : List CNode → List (Nat × Node)
  | [] => []
  | .sep :: rest => msgNodes rest
  | .msg i n :: rest => (i, n) :: msgNodes rest

/-! ## Dispatcher (source lines 664-692)

`handleChatMutations` filters the mutations down to newly added
`chat-txt` elements and, if any, runs the five feature handlers inside
a single `try { ... } catch` block.  The handler slots are abstracted
as state transformers that may throw (`Except`); the `catch` logs and
returns, so a throw yields the state as of the last completed handler
and never propagates to the observer. -/

/-- The `try`/`catch` of `handleChatMutations` (source lines 683-691):
the five handler invocations run in order inside one `try`; the first
throw is caught (and logged) and processing of the batch stops there. -/
def processFeatures {σ ε : Type} (checkForMentionsH highlightOwnMessagesH
    checkForSessionChangeH addMarkerButtonsH checkForKeywordsH : σ → Except ε σ)
    (s : σ) : σ :=
  match checkForMentionsH s with
  | .error _ => s
  | .ok s1 =>
    match highlightOwnMessagesH s1 with
    | .error _ => s1
    | .ok s2 =>
      match checkForSessionChangeH s2 with
      | .error _ => s2
      | .ok s3 =>
        match addMarkerButtonsH s3 with
        | .error _ => s3
        | .ok s4 =>
          match checkForKeywordsH s4 with
          | .error _ => s4
          | .ok s5 => s5

/-- The filter of `handleChatMutations` (source lines 665-678): the
added nodes of all mutations that are elements carrying class
`chat-txt`, in arrival order. -/
def filterNewMessages (mutationsAdded : List (List Node)) : List Node :=
  (mutationsAdded.flatten).filter (hasClass "chat-txt")

/-! ## Observer and feature controls (source lines 694-895)

The global `state` object, restricted to the fields the start
functions touch.  The MutationObserver subscription is counted
(`observerCount`) so that "at most one subscription" is expressible;
`new MutationObserver` + `observe` increments it, and the
`if (state.observer) return` guard is the `observerCount ≠ 0` test.
External collaborators are passed as explicit inputs: the stored
username / keyword list (`localStorage` reads), the `prompt` replies,
and whether the container polling succeeded. -/

/-- `state.features` (source lines 67-73). -/
structure Features where
  mentions : Bool
  highlighting : Bool
  separator : Bool
  markers : Bool
  keywords : Bool
  deriving Repr, DecidableEq

/-- The global mutable state the start functions read and write
(source lines 59-74), plus the chat container's current message
elements (`document.querySelectorAll(".chat-txt")`). -/
structure AppState where
  username : Option String
  observerCount : Nat
  seenMessages : List String
  lastKnownMessage : Option String
  markedMessages : List String
  keywords : List String
  keywordMatches : List String
  features : Features
  dom : List Node

/-- The initial `state` literal (source lines 59-74), over a given
page content. -/
def initState (dom : List Node) : AppState :=
  { username := none, observerCount := 0, seenMessages := [],
    lastKnownMessage := none, markedMessages := [], keywords := [],
    keywordMatches := [],
    features := { mentions := false, highlighting := false,
                  separator := false, markers := false, keywords := false },
    dom := dom }

/-- `startObserver` (source lines 694-710): return if a subscription
exists; otherwise poll for the container — on success attach one
subscription, on `ContainerNotFound` log and leave the state as is. -/
def startObserver (containerFound : Bool) (s : AppState) : AppState :=
  if s.observerCount ≠ 0 then s
  else if containerFound then { s with observerCount := s.observerCount + 1 }
  else s

/-- The username-resolution preamble shared by `startMentionWatcher`
and `startHighlighter` (source lines 727-739 and 757-769): keep a
truthy `state.username`; else adopt a truthy stored value; else prompt
— a falsy reply aborts (`none` result), otherwise the sanitized input
becomes the username. -/
def resolveUsername (stored promptReply : Option String) (s : AppState) :
    Option AppState :=
  if strTruthy s.username then some s
  else if strTruthy stored then some { s with username := stored }
  else match promptReply with
  | none => none
  | some input =>
    if input = "" then none
    else some { s with username := some (sanitizeUsername input) }

/-- `startMentionWatcher` (source lines 724-746). -/
def startMentionWatcher (stored promptReply : Option String)
    (containerFound : Bool) (s : AppState) : AppState :=
  if s.features.mentions then s else
  match resolveUsername stored promptReply s with
  | none => s
  | some s1 =>
    startObserver containerFound
      { s1 with features := { s1.features with mentions := true } }

/-- `startHighlighter` (source lines 754-779): resolve the username,
set the flag, start the observer, then highlight the messages already
on the page. -/
def startHighlighter (stored promptReply : Option String)
    (containerFound : Bool) (s : AppState) : AppState :=
  if s.features.highlighting then s else
  match resolveUsername stored promptReply s with
  | none => s
  | some s1 =>
    let s2 := startObserver containerFound
      { s1 with features := { s1.features with highlighting := true } }
    { s2 with dom := highlightOwnMessages s2.features.highlighting s2.username s2.dom }

/-- `startSeparator` (source lines 798-805). -/
def startSeparator (containerFound : Bool) (s : AppState) : AppState :=
  if s.features.separator then s else
  startObserver containerFound
    { s with features := { s.features with separator := true } }

/-- `startMarkers` (source lines 817-828): set the flag, start the
observer, then add pin buttons to the messages already on the page. -/
def startMarkers (containerFound : Bool) (s : AppState) : AppState :=
  if s.features.markers then s else
  let s1 := startObserver containerFound
    { s with features := { s.features with markers := true } }
  { s1 with dom := addMarkerButtons s1.features.markers s1.markedMessages s1.dom }

/-- The keyword parsing of `startKeywordWatcher` (source lines
873-877): split on commas, trim, lower-case, strip parentheses, drop
empties, and collect into a `Set` (first occurrence kept). -/
def parseKeywords (input : String) : List String :=
  (((input.data.splitOn ',').map
      (fun cs => jsStripParens (jsToLower (jsTrim ⟨cs⟩)))).filter
    (fun k => k ≠ "")).foldl (fun acc k => if k ∈ acc then acc else acc ++ [k]) []

/-- `loadKeywords` (source lines 201-212): adopt the stored list,
lower-cased and deduplicated, when a stored value exists; on a missing
key or a parse failure leave the keyword set unchanged. -/
def loadKeywords (storedKeywords : Option (List String)) (s : AppState) : AppState :=
  match storedKeywords with
  | none => s
  | some ks =>
    { s with keywords :=
        (ks.map jsToLower).foldl (fun acc k => if k ∈ acc then acc else acc ++ [k]) [] }

/-- `startKeywordWatcher` (source lines 859-888): load stored
keywords; if none, prompt (a falsy reply aborts); then set the flag
and start the observer. -/
def startKeywordWatcher (storedKeywords : Option (List String))
    (promptReply : Option String) (containerFound : Bool) (s : AppState) : AppState :=
  if s.features.keywords then s else
  let s1 := loadKeywords storedKeywords s
  let s2? :=
    if s1.keywords.length == 0 then
      match promptReply with
      | none => none
      | some input =>
        if input = "" then none
        else some { s1 with keywords := parseKeywords input }
    else some s1
  match s2? with
  | none => s1
  | some s2 =>
    startObserver containerFound
      { s2 with features := { s2.features with keywords := true } }

/-- One press of a feature's start control, with the external inputs
(stored values, prompt replies, container availability) it consumes. -/
inductive StartOp : Type where
  | mentions (stored promptReply : Option String) (containerFound : Bool)
  | highlighter (stored promptReply : Option String) (containerFound : Bool)
  | separator (containerFound : Bool)
  | markers (containerFound : Bool)
  | keywords (storedKeywords : Option (List String))
      (promptReply : Option String) (containerFound : Bool)

/-- Interpret one start control. -/
def applyStart : StartOp → AppState → AppState
  | .mentions stored p found, s => startMentionWatcher stored p found s
  | .highlighter stored p found, s => startHighlighter stored p found s
  | .separator found, s => startSeparator found s
  | .markers found, s => startMarkers found s
  | .keywords sk p found, s => startKeywordWatcher sk p found s

/-- Interpret a sequence of start controls, oldest first. -/
def applyStarts (ops : List StartOp) (s : AppState) : AppState :=
  ops.foldl (fun s op => applyStart op s) s

/-! ## Concrete element builders for witnesses and counterexamples -/

/-- A text-only element. -/
def textNode (s : String) : Node := .mk { ownText := s } []

/-- An empty element. -/
def blankNode : Node := .mk {} []

/-- A chat message with the documented shape: timestamp at child 0,
author at child 2, body container at child 5. -/
def mkChatMsg (ts author : String) (body : Node) : Node :=
  .mk { tag := "div", classes := ["chat-txt"] }
    [textNode ts, blankNode, textNode author, blankNode, blankNode, body]

/-- An item reference: a link wrapping an image whose alt text is the
item's display name. -/
def itemLink (alt : String) : Node :=
  .mk { tag := "a", href := "item.php" } [.mk { tag := "img", alt := alt } []]

/-! ## C2 — identity normalization -/

/-- C2, counterexample: the three spec inputs do not all normalize
equal: `"PlayerOne"` and `"@PlayerOne:"` both normalize to
`"playerone"`, but `"player+one"` normalizes to `"player one"`
(the `+` becomes a space and nothing removes it), which differs. -/
theorem c2_counterexample :
    normalizeUsername "PlayerOne" = "playerone" ∧
    normalizeUsername "@PlayerOne:" = "playerone" ∧
    normalizeUsername "player+one" = "player one" ∧
    normalizeUsername "player+one" ≠ normalizeUsername "PlayerOne" := by
  refine ⟨by decide, by decide, by decide, by decide⟩

/-- C2, amended: `"PlayerOne"` and `"@PlayerOne:"` normalize equal and
classify as the same author; `"player+one"` instead normalizes equal
to `"Player One"` (plus encodes a space) and names a different
normalized identity than `"PlayerOne"`. -/
theorem c2_amended :
    normalizeUsername "PlayerOne" = normalizeUsername "@PlayerOne:" ∧
    normalizeUsername "player+one" = normalizeUsername "Player One" ∧
    normalizeUsername "player+one" ≠ normalizeUsername "PlayerOne" := by
  refine ⟨by decide, by decide, by decide⟩

/-! ## C3 — fingerprint determinism and (claimed) injectivity -/

/-- C3, counterexample: equal fingerprints do not imply equal
extracted fields.  The separator is not escaped: timestamp `"a:b"`
with body `"c"` and timestamp `"a"` with body `"b:c"` both fingerprint
to `"a:b:c"` while their timestamp texts differ. -/
theorem c3_counterexample :
    getMessageFingerprint (mkChatMsg "a:b" "X" (textNode "c")) =
      getMessageFingerprint (mkChatMsg "a" "X" (textNode "b:c")) ∧
    msgTimestampText (mkChatMsg "a:b" "X" (textNode "c")) ≠
      msgTimestampText (mkChatMsg "a" "X" (textNode "b:c")) := by
  refine ⟨by decide, by decide⟩

/-- C3, amended: the fingerprint is deterministic — it is a function
of the extracted (timestamp-text, body-text) fields alone, so equal
extracted fields always yield an equal fingerprint.  The converse
direction claimed by the spec is refuted by `c3_counterexample`. -/
theorem c3_amended (m1 m2 : Node)
    (hts : msgTimestampText m1 = msgTimestampText m2)
    (hbody : msgBodyText m1 = msgBodyText m2) :
    getMessageFingerprint m1 = getMessageFingerprint m2 := by
  unfold getMessageFingerprint
  rw [hts, hbody]

/-- C3, witness: two messages differing only in the author field have
equal extracted fields, and `c3_amended` yields equal fingerprints. -/
theorem c3_witness :
    msgTimestampText (mkChatMsg "12:00" "Alice" (textNode "hi")) =
      msgTimestampText (mkChatMsg "12:00" "Bob" (textNode "hi")) ∧
    msgBodyText (mkChatMsg "12:00" "Alice" (textNode "hi")) =
      msgBodyText (mkChatMsg "12:00" "Bob" (textNode "hi")) ∧
    getMessageFingerprint (mkChatMsg "12:00" "Alice" (textNode "hi")) =
      getMessageFingerprint (mkChatMsg "12:00" "Bob" (textNode "hi")) :=
  ⟨by decide, by decide,
   c3_amended (mkChatMsg "12:00" "Alice" (textNode "hi"))
     (mkChatMsg "12:00" "Bob" (textNode "hi")) (by decide) (by decide)⟩

/-! ## C7 — stopping the session marker -/

/-- C7, counterexample: `stopSeparator` does not return the state
machine to the pristine idle state: with a recorded leading
fingerprint `"12:00:hi"`, stopping leaves that fingerprint recorded,
unlike the state before the first batch (where it is `none`). -/
theorem c7_counterexample :
    (stopSeparator ⟨true, some "12:00:hi"⟩ [CNode.sep]).1.lastKnownMessage =
      some "12:00:hi" ∧
    some "12:00:hi" ≠ (none : Option String) := by
  refine ⟨rfl, by decide⟩

/-- C7, amended: `stopSeparator` removes every inserted divider and
clears the feature flag, but retains the recorded last-known leading
fingerprint — the session-marker state is disabled, not reset to the
pristine idle state. -/
theorem c7_amended (st : SepState) (dom : List CNode) :
    countSep (stopSeparator st dom).2 = 0 ∧
    (stopSeparator st dom).1.separatorOn = false ∧
    (stopSeparator st dom).1.lastKnownMessage = st.lastKnownMessage := by
  refine ⟨?_, rfl, rfl⟩
  unfold stopSeparator countSep
  simp [List.filter_filter]

/-! ## C1 — dispatcher failure isolation -/

/-- C1, counterexample: the five handler invocations run inside a
single `try`/`catch`, so a handler that throws aborts the rest of the
batch.  With the Mention Matcher slot throwing and each later slot
recording its invocation, no later handler runs: the log stays empty
instead of `[2, 3, 4, 5]`. -/
theorem c1_counterexample :
    processFeatures (fun _ : List Nat => (Except.error () : Except Unit (List Nat)))
      (fun l => .ok (l ++ [2])) (fun l => .ok (l ++ [3]))
      (fun l => .ok (l ++ [4])) (fun l => .ok (l ++ [5])) [] = [] ∧
    ([] : List Nat) ≠ [2, 3, 4, 5] := by
  refine ⟨rfl, by decide⟩

/-- C1, amended: the dispatcher wraps the whole batch in one
`try`/`catch`: a throw from any handler is caught (the dispatcher
returns normally with the state as of the last completed handler, so
future batches are unaffected), but the remaining handlers of the same
batch are skipped rather than invoked. -/
theorem c1_amended {σ ε : Type} (h1 h2 h3 h4 h5 : σ → Except ε σ)
    (s s1 s2 s3 s4 s5 : σ) (e : ε) :
    (h1 s = .error e → processFeatures h1 h2 h3 h4 h5 s = s) ∧
    (h1 s = .ok s1 → h2 s1 = .error e →
      processFeatures h1 h2 h3 h4 h5 s = s1) ∧
    (h1 s = .ok s1 → h2 s1 = .ok s2 → h3 s2 = .error e →
      processFeatures h1 h2 h3 h4 h5 s = s2) ∧
    (h1 s = .ok s1 → h2 s1 = .ok s2 → h3 s2 = .ok s3 → h4 s3 = .error e →
      processFeatures h1 h2 h3 h4 h5 s = s3) ∧
    (h1 s = .ok s1 → h2 s1 = .ok s2 → h3 s2 = .ok s3 → h4 s3 = .ok s4 →
      h5 s4 = .error e → processFeatures h1 h2 h3 h4 h5 s = s4) ∧
    (h1 s = .ok s1 → h2 s1 = .ok s2 → h3 s2 = .ok s3 → h4 s3 = .ok s4 →
      h5 s4 = .ok s5 → processFeatures h1 h2 h3 h4 h5 s = s5) := by
  unfold processFeatures
  refine ⟨?_, ?_, ?_, ?_, ?_, ?_⟩
  · intro a1; simp only [a1]
  · intro a1 a2; simp only [a1, a2]
  · intro a1 a2 a3; simp only [a1, a2, a3]
  · intro a1 a2 a3 a4; simp only [a1, a2, a3, a4]
  · intro a1 a2 a3 a4 a5; simp only [a1, a2, a3, a4, a5]
  · intro a1 a2 a3 a4 a5; simp only [a1, a2, a3, a4, a5]

/-- C1, witness: instantiating `c1_amended` with a throwing first
handler shows the dispatcher returns the pre-batch state (the error is
caught, nothing propagates). -/
theorem c1_witness :
    processFeatures (fun _ : Nat => (Except.error () : Except Unit Nat))
      (fun n => .ok (n + 1)) (fun n => .ok (n + 1))
      (fun n => .ok (n + 1)) (fun n => .ok (n + 1)) 0 = 0 :=
  (c1_amended (fun _ : Nat => (Except.error () : Except Unit Nat))
    (fun n => .ok (n + 1)) (fun n => .ok (n + 1))
    (fun n => .ok (n + 1)) (fun n => .ok (n + 1)) 0 0 0 0 0 0 ()).1 rfl

/-! ## C4 — bounded history sets -/

/-- 150 pairwise-distinct fingerprints. -/
def fps150 : List String := (List.range 150).map (fun i => "fp" ++ toString i)

section
set_option maxRecDepth 100000
set_option maxHeartbeats 1000000

/-- C4: a history-set insertion never leaves the set above capacity,
and inserting the 150 distinct fingerprints of `fps150` into an empty
set leaves exactly the last 100, in their original insertion order. -/
theorem c4_theorem :
    (∀ (s : List String) (fp : String), s.length ≤ MAX_SEEN_MESSAGES →
      (seenInsert s fp).length ≤ MAX_SEEN_MESSAGES) ∧
    (List.foldl seenInsert [] fps150).length = 100 ∧
    List.foldl seenInsert [] fps150 = fps150.drop 50 := by
  refine ⟨?_, by decide, by decide⟩
  intro s fp h
  unfold seenInsert trimSeen
  split
  · exact h
  · split
    · next h2 =>
      simp only [List.length_drop]
      omega
    · next h2 =>
      simp only [Nat.not_lt] at h2
      · simpa using h2

end

/-- C4, witness: a concrete insertion into a one-element set stays
within capacity, via `c4_theorem`. -/
theorem c4_witness :
    (["a"] : List String).length ≤ MAX_SEEN_MESSAGES ∧
    (seenInsert ["a"] "b").length ≤ MAX_SEEN_MESSAGES :=
  ⟨by decide, c4_theorem.1 ["a"] "b" (by decide)⟩

/-! ## C5 — pin / keyword non-interference -/

/-- `applyKeywordHighlight` leaves a pin-styled message untouched
(source line 615's guard). -/
theorem applyKeywordHighlight_of_marked (msg : Node) (kw : String)
    (hmark : msg.classes.contains "chat-marked" = true) :
    applyKeywordHighlight msg kw = msg := by
  unfold applyKeywordHighlight
  simp only [hmark, if_true]

/-- C5: when the Keyword Matcher finds a first keyword match for a
message that already carries pin styling (class `chat-marked`), the
message element is returned exactly as it was — pin styling retained,
no keyword class, styling or badge — while the fingerprint is still
recorded and the keyword notification is still emitted. -/
theorem c5_theorem (msg tc : Node) (keywords kwSeen : List String) (kw : String)
    (hmark : msg.classes.contains "chat-marked" = true)
    (h5 : msg.kids[5]? = some tc)
    (hmatch : matchesKeywords keywords (some tc) = .ok (some kw))
    (hfresh : getMessageFingerprint msg ∉ kwSeen) :
    checkForKeywords true keywords [msg] kwSeen =
      .ok (trimSeen (seenAdd kwSeen (getMessageFingerprint msg)), [msg],
           [("Keyword Alert: \"" ++ kw ++ "\"", authorText msg)]) := by
  have hne : (keywords.length == 0) = false := by
    rcases h : keywords.length == 0
    · rfl
    · exfalso
      unfold matchesKeywords at hmatch
      rw [h] at hmatch
      simp at hmatch
  unfold checkForKeywords
  rw [hne]
  simp only [Bool.not_true, Bool.false_or, if_false]
  unfold checkForKeywordsAux
  rw [h5]
  simp only [hmatch]
  rw [if_neg hfresh]
  unfold checkForKeywordsAux
  simp only [applyKeywordHighlight_of_marked msg kw hmark, seenAdd, if_neg hfresh]
  simp

/-- A pinned chat message whose body holds a single `Dragon Egg` item
reference, for the C5 witness. -/
def pinnedBody : Node := .mk {} [itemLink "Dragon Egg"]

/-- The pinned message itself (class `chat-marked` present). -/
def pinnedMsg : Node :=
  .mk { tag := "div", classes := ["chat-txt", "chat-marked"] }
    [textNode "12:00", blankNode, textNode "Alice", blankNode, blankNode, pinnedBody]

/-- C5, witness: `c5_theorem` applied to the pinned `Dragon Egg`
message with keyword set `{"dragon egg"}`. -/
theorem c5_witness :
    pinnedMsg.classes.contains "chat-marked" = true ∧
    checkForKeywords true ["dragon egg"] [pinnedMsg] [] =
      .ok (trimSeen (seenAdd [] (getMessageFingerprint pinnedMsg)), [pinnedMsg],
           [("Keyword Alert: \"dragon egg\"", authorText pinnedMsg)]) :=
  ⟨by decide,
   c5_theorem pinnedMsg pinnedBody ["dragon egg"] [] "dragon egg"
     (by decide) rfl rfl (by simp)⟩

/-! ## C9 — handlers are total on malformed messages -/

/-- With a present text container, `matchesKeywords` cannot throw:
the only throw point (`textContainer.children` on undefined) is
guarded by every caller. -/
theorem matchesKeywords_ok (keywords : List String) (tc : Node) :
    ∃ o, matchesKeywords keywords (some tc) = .ok o := by
  unfold matchesKeywords extractItems
  split
  · exact ⟨none, rfl⟩
  · exact ⟨_, rfl⟩

/-- The keyword loop never throws, for every batch (malformed messages
included): the `if (!textContainer) continue` guard keeps the lone
throw point unreachable. -/
theorem checkForKeywordsAux_ok (keywords : List String) :
    ∀ (msgs : List Node) (kwSeen : List String),
      ∃ r, checkForKeywordsAux keywords msgs kwSeen = .ok r := by
  intro msgs
  induction msgs with
  | nil => intro kwSeen; exact ⟨_, rfl⟩
  | cons msg rest ih =>
    intro kwSeen
    cases h5 : msg.kids[5]? with
    | none =>
      obtain ⟨⟨m, ms, ns⟩, hr⟩ := ih kwSeen
      exact ⟨(m, msg :: ms, ns), by simp only [checkForKeywordsAux, h5, hr]⟩
    | some tc =>
      obtain ⟨o, ho⟩ := matchesKeywords_ok keywords tc
      cases o with
      | none =>
        obtain ⟨⟨m, ms, ns⟩, hr⟩ := ih kwSeen
        exact ⟨(m, msg :: ms, ns),
          by simp only [checkForKeywordsAux, h5, ho, hr]⟩
      | some kw =>
        by_cases hm : getMessageFingerprint msg ∈ kwSeen
        · obtain ⟨⟨m, ms, ns⟩, hr⟩ := ih kwSeen
          exact ⟨(m, msg :: ms, ns),
            by simp only [checkForKeywordsAux, h5, ho, if_pos hm, hr]⟩
        · obtain ⟨⟨m, ms, ns⟩, hr⟩ :=
            ih (trimSeen (seenAdd kwSeen (getMessageFingerprint msg)))
          exact ⟨(m, applyKeywordHighlight msg kw :: ms,
                  ("Keyword Alert: \"" ++ kw ++ "\"", authorText msg) :: ns),
            by simp only [checkForKeywordsAux, h5, ho, if_neg hm, hr]⟩

/-- C9: a message missing its expected positional field is treated as
non-matching and the handler continues with the rest of the batch,
never throwing: (1) the Mention Matcher skips a message with no child
at the body position, leaving state and notifications as if the
message were absent; (2) the Self-Highlighter leaves a message with no
profile link untouched and continues; (3) the Keyword Matcher returns
normally on every batch; and (4) it skips a message with no child at
the body position, merely passing it through. -/
theorem c9_theorem :
    (∀ (uname : String) (msg : Node) (rest : List Node) (seen : List String),
      msg.kids[5]? = none →
      checkForMentionsAux uname (msg :: rest) seen =
        checkForMentionsAux uname rest seen) ∧
    (∀ (featureOn : Bool) (username : Option String) (msg : Node) (rest : List Node),
      querySelectorDesc isProfileLink msg = none →
      highlightOwnMessages featureOn username (msg :: rest) =
        msg :: highlightOwnMessages featureOn username rest) ∧
    (∀ (keywords : List String) (msgs : List Node) (kwSeen : List String),
      ∃ r, checkForKeywordsAux keywords msgs kwSeen = .ok r) ∧
    (∀ (keywords : List String) (msg : Node) (rest : List Node) (kwSeen : List String),
      msg.kids[5]? = none →
      checkForKeywordsAux keywords (msg :: rest) kwSeen =
        (checkForKeywordsAux keywords rest kwSeen).map
          (fun r => (r.1, msg :: r.2.1, r.2.2))) := by
  refine ⟨?_, ?_, checkForKeywordsAux_ok, ?_⟩
  · intro uname msg rest seen h5
    simp only [checkForMentionsAux, h5]
  · intro featureOn username msg rest hq
    unfold highlightOwnMessages
    cases hg : (!featureOn || !strTruthy username) with
    | true => simp [hg]
    | false => simp [hg, hq]
  · intro keywords msg rest kwSeen h5
    obtain ⟨r, hr⟩ := checkForKeywordsAux_ok keywords rest kwSeen
    obtain ⟨m, ms, ns⟩ := r
    simp only [checkForKeywordsAux, h5, hr, Except.map]

/-- C9, witness: the empty element (no positional children, no profile
link) is skipped by each handler via `c9_theorem`. -/
theorem c9_witness :
    checkForMentionsAux "alice" [blankNode] [] =
      checkForMentionsAux "alice" [] [] ∧
    highlightOwnMessages true (some "Alice") [blankNode] =
      blankNode :: highlightOwnMessages true (some "Alice") [] ∧
    ∃ r, checkForKeywordsAux ["dragon egg"] [blankNode] [] = .ok r :=
  ⟨c9_theorem.1 "alice" blankNode [] [] rfl,
   c9_theorem.2.1 true (some "Alice") blankNode [] rfl,
   c9_theorem.2.2.1 ["dragon egg"] [blankNode] []⟩

/-! ## C10 — visual annotations leave fingerprints unchanged -/

/-- The fingerprint reads only the child list (children 0 and 5), so
two elements with equal child lists fingerprint equally — in
particular, changing only attributes (class list, styles) of the
message preserves its fingerprint. -/
theorem getMessageFingerprint_eq_of_kids (m1 m2 : Node) (h : m1.kids = m2.kids) :
    getMessageFingerprint m1 = getMessageFingerprint m2 := by
  unfold getMessageFingerprint msgTimestampText msgBodyText
  rw [h]

/-- `applyMarkerStyle` only touches classes and styles. -/
theorem applyMarkerStyle_kids (msg : Node) :
    (applyMarkerStyle msg).kids = msg.kids := by
  unfold applyMarkerStyle classListAdd
  cases msg with
  | mk d ks => split <;> rfl

/-- `setHighlightStyle` only touches styles. -/
theorem setHighlightStyle_kids (msg : Node) :
    (setHighlightStyle msg).kids = msg.kids := by
  cases msg with
  | mk d ks => rfl

/-- `classListAdd` only touches the class list. -/
theorem classListAdd_kids (msg : Node) (c : String) :
    (classListAdd msg c).kids = msg.kids := by
  unfold classListAdd
  cases msg with
  | mk d ks => split <;> rfl

/-- `withData` keeps the child list. -/
theorem withData_kids (m : Node) (d : NodeData) : (m.withData d).kids = m.kids := by
  cases m
  rfl

/-- `withKids` installs exactly the given child list. -/
theorem withKids_kids (m : Node) (ks : List Node) : (m.withKids ks).kids = ks := by
  cases m
  rfl

/-- The fingerprint as a function of the child list alone. -/
def fpOfKids (ks : List Node) : String :=
  jsTrim ((match ks[0]? with | none => "" | some c => c.textContent) ++ ":" ++
          (match ks[5]? with | none => "" | some c => c.textContent))

/-- `getMessageFingerprint` factors through the child list. -/
theorem getMessageFingerprint_eq_fpOfKids (m : Node) :
    getMessageFingerprint m = fpOfKids m.kids := rfl

/-- Appending a child beyond position 5 preserves the fingerprint. -/
theorem fpOfKids_append (ks : List Node) (b : Node) (h : 5 < ks.length) :
    fpOfKids (ks ++ [b]) = fpOfKids ks := by
  have h0 : 0 < ks.length := by omega
  unfold fpOfKids
  simp only [List.getElem?_append, h, h0, if_pos]

/-- Replacing the child at a position other than 0 and 5 preserves the
fingerprint. -/
theorem fpOfKids_set (ks : List Node) (i : Nat) (a : Node)
    (h0 : i ≠ 0) (h5 : i ≠ 5) :
    fpOfKids (ks.set i a) = fpOfKids ks := by
  unfold fpOfKids
  rw [List.getElem?_set_ne h0, List.getElem?_set_ne h5]

/-- C10: for a message whose body container is present at child
position 5, every visual annotation the script performs preserves the
message's fingerprint: appending the pin button (and restoring pin
styling), applying pin styling, applying keyword styling with its
badge on the author element at child 2, applying self-highlight
styling — and divider insertion leaves every message element of the
container untouched. -/
theorem c10_theorem (msg tc : Node) (kw : String) (marked : List String)
    (h5 : msg.kids[5]? = some tc) :
    getMessageFingerprint (addMarkerButtonTo marked msg) = getMessageFingerprint msg ∧
    getMessageFingerprint (applyMarkerStyle msg) = getMessageFingerprint msg ∧
    getMessageFingerprint (applyKeywordHighlight msg kw) = getMessageFingerprint msg ∧
    getMessageFingerprint (setHighlightStyle msg) = getMessageFingerprint msg ∧
    (∀ (dom : List CNode) (tid : Nat),
      msgNodes (insertSeparatorBefore dom tid) = msgNodes dom) := by
  have h5lt : 5 < msg.kids.length := by
    by_contra hlt
    rw [List.getElem?_eq_none (by omega)] at h5
    exact Option.noConfusion h5
  refine ⟨?_, ?_, ?_, ?_, ?_⟩
  · -- addMarkerButtonTo
    unfold addMarkerButtonTo
    split
    · rfl
    · dsimp only
      split
      · -- pinned fingerprint: restore path
        rw [getMessageFingerprint_eq_fpOfKids, getMessageFingerprint_eq_fpOfKids]
        simp only [withKids_kids, withData_kids, applyMarkerStyle_kids]
        rw [List.dropLast_concat]
        exact fpOfKids_append msg.kids (markerButton "1") h5lt
      · rw [getMessageFingerprint_eq_fpOfKids, getMessageFingerprint_eq_fpOfKids]
        simp only [withKids_kids, withData_kids]
        exact fpOfKids_append msg.kids (markerButton "0.6") h5lt
  · exact getMessageFingerprint_eq_of_kids _ _ (applyMarkerStyle_kids msg)
  · -- applyKeywordHighlight
    unfold applyKeywordHighlight
    split
    · rfl
    · dsimp only
      split
      · -- no author element: only attributes changed
        apply getMessageFingerprint_eq_of_kids
        simp only [withData_kids, classListAdd_kids]
      · -- badge appended to the element at child position 2
        rw [getMessageFingerprint_eq_fpOfKids, getMessageFingerprint_eq_fpOfKids]
        simp only [withKids_kids, withData_kids, classListAdd_kids]
        exact fpOfKids_set msg.kids 2 _ (by omega) (by omega)
  · exact getMessageFingerprint_eq_of_kids _ _ (setHighlightStyle_kids msg)
  · -- insertSeparatorBefore
    intro dom tid
    unfold insertSeparatorBefore
    suffices h : ∀ (b : Bool) (d : List CNode),
        msgNodes (insertSepAux tid b d) = msgNodes d from h false dom
    intro b d
    induction d generalizing b with
    | nil => rfl
    | cons c rest ih =>
      cases c with
      | sep => simp only [insertSepAux, msgNodes, ih]
      | msg i n =>
        by_cases hid : (i == tid) = true
        · simp only [insertSepAux, hid, if_true]
          split <;> simp only [msgNodes]
        · simp only [insertSepAux, hid]
          simp only [Bool.false_eq_true, if_false, msgNodes, ih]

/-- C10, witness: the annotations preserve the fingerprint of a
concrete well-formed message, and divider insertion preserves a
concrete container's messages, via `c10_theorem`. -/
theorem c10_witness :
    (mkChatMsg "12:00" "Alice" (textNode "hi")).kids[5]? = some (textNode "hi") ∧
    getMessageFingerprint (addMarkerButtonTo []
      (mkChatMsg "12:00" "Alice" (textNode "hi"))) =
      getMessageFingerprint (mkChatMsg "12:00" "Alice" (textNode "hi")) ∧
    getMessageFingerprint (applyKeywordHighlight
      (mkChatMsg "12:00" "Alice" (textNode "hi")) "egg") =
      getMessageFingerprint (mkChatMsg "12:00" "Alice" (textNode "hi")) :=
  ⟨rfl,
   (c10_theorem (mkChatMsg "12:00" "Alice" (textNode "hi")) (textNode "hi")
     "egg" [] rfl).1,
   (c10_theorem (mkChatMsg "12:00" "Alice" (textNode "hi")) (textNode "hi")
     "egg" [] rfl).2.2.1⟩

/-! ## C6 — session marker divider insertion -/

/-- The container consisting of the given message elements, in order,
with no separators. -/
def domOfMsgs (msgs : List (Nat × Node)) : List CNode :=
  msgs.map (fun p => CNode.msg p.1 p.2)

/-- `find?` skips a prefix on which the predicate fails. -/
theorem find?_append_of_none {α : Type} (p : α → Bool) (pre rest : List α)
    (h : ∀ x ∈ pre, p x = false) :
    List.find? p (pre ++ rest) = List.find? p rest := by
  induction pre with
  | nil => rfl
  | cons a pre ih =>
    simp only [List.cons_append, List.find?, h a (List.mem_cons_self a pre)]
    exact ih (fun x hx => h x (List.mem_cons_of_mem a hx))

/-- `insertSeparator` on a separator-free container whose prefix does
not contain the target: the separator lands immediately before the
target message. -/
theorem insertSepAux_at_target (tid : Nat) (nF : Node)
    (pre : List (Nat × Node)) (suffix : List CNode)
    (hpreid : ∀ p ∈ pre, p.1 ≠ tid) :
    insertSepAux tid false (domOfMsgs pre ++ CNode.msg tid nF :: suffix) =
      domOfMsgs pre ++ CNode.sep :: CNode.msg tid nF :: suffix := by
  induction pre with
  | nil =>
    simp only [domOfMsgs, List.map_nil, List.nil_append, insertSepAux,
      beq_self_eq_true, if_true]
    rfl
  | cons p pre ih =>
    have hne : (p.1 == tid) = false := by
      simpa using hpreid p (List.mem_cons_self p pre)
    simp only [domOfMsgs, List.map_cons, List.cons_append, insertSepAux, hne,
      Bool.false_eq_true, if_false, List.append_eq]
    rw [show (List.map (fun p => CNode.msg p.1 p.2) pre : List CNode) =
      domOfMsgs pre from rfl]
    rw [ih (fun q hq => hpreid q (List.mem_cons_of_mem p hq))]

/-- C6, amended: with leading fingerprint `F` recorded and a batch
carrying a removal signal whose messages (re-inserted as the whole
container) contain one message with fingerprint `F` — preceded only by
messages of other fingerprints and identities — exactly one divider is
inserted, immediately before that message (first conjunct).  The
leading fingerprint is then updated to the batch's first message, so a
repeat inserts no second divider only in the case where the `F`
message leads the batch: there the divider already immediately
precedes the target and the repeat changes nothing (second conjunct).
`c6_counterexample` shows the repeat does insert a second divider when
the `F` message is not the leading one. -/
theorem c6_amended (pre post : List (Nat × Node)) (tid : Nat) (nF : Node)
    (hpre : ∀ p ∈ pre, getMessageFingerprint p.2 ≠ getMessageFingerprint nF)
    (hpreid : ∀ p ∈ pre, p.1 ≠ tid) :
    (checkForSessionChange ⟨true, some (getMessageFingerprint nF)⟩
        (domOfMsgs (pre ++ (tid, nF) :: post)) (pre ++ (tid, nF) :: post) true).2 =
      domOfMsgs pre ++ CNode.sep :: CNode.msg tid nF :: domOfMsgs post ∧
    checkForSessionChange ⟨true, some (getMessageFingerprint nF)⟩
        (CNode.sep :: CNode.msg tid nF :: domOfMsgs post) ((tid, nF) :: post) true =
      (⟨true, some (getMessageFingerprint nF)⟩,
       CNode.sep :: CNode.msg tid nF :: domOfMsgs post) := by
  constructor
  · unfold checkForSessionChange
    have hfind : List.find?
        (fun p => getMessageFingerprint p.2 == getMessageFingerprint nF)
        (pre ++ (tid, nF) :: post) = some (tid, nF) := by
      rw [find?_append_of_none _ pre _
        (fun x hx => by simpa using hpre x hx)]
      simp [List.find?]
    simp only [hfind]
    have hdom : domOfMsgs (pre ++ (tid, nF) :: post) =
        domOfMsgs pre ++ CNode.msg tid nF :: domOfMsgs post := by
      simp [domOfMsgs]
    rw [hdom]
    rw [show insertSeparatorBefore
        (domOfMsgs pre ++ CNode.msg tid nF :: domOfMsgs post) tid =
      insertSepAux tid false
        (domOfMsgs pre ++ CNode.msg tid nF :: domOfMsgs post) from rfl]
    rw [insertSepAux_at_target tid nF pre (domOfMsgs post) hpreid]
    cases hh : (pre ++ (tid, nF) :: post).head? <;> simp
  · unfold checkForSessionChange
    simp only [List.find?, beq_self_eq_true, Bool.not_true]
    rw [show insertSeparatorBefore
        (CNode.sep :: CNode.msg tid nF :: domOfMsgs post) tid =
      CNode.sep :: insertSepAux tid true (CNode.msg tid nF :: domOfMsgs post)
      from rfl]
    simp only [insertSepAux, beq_self_eq_true, if_true]
    simp

/-- C6, witness: `c6_amended` at a concrete two-message batch: the
recorded fingerprint belongs to the second message, and after the
removal-signal batch the divider sits exactly before it; and for the
leading-message case the repeated event changes nothing. -/
theorem c6_witness :
    (checkForSessionChange
        ⟨true, some (getMessageFingerprint (mkChatMsg "09:01" "Bob" (textNode "late")))⟩
        (domOfMsgs [(0, mkChatMsg "09:00" "Alice" (textNode "early")),
                    (1, mkChatMsg "09:01" "Bob" (textNode "late"))])
        [(0, mkChatMsg "09:00" "Alice" (textNode "early")),
         (1, mkChatMsg "09:01" "Bob" (textNode "late"))] true).2 =
      domOfMsgs [(0, mkChatMsg "09:00" "Alice" (textNode "early"))] ++
        CNode.sep :: CNode.msg 1 (mkChatMsg "09:01" "Bob" (textNode "late")) ::
          domOfMsgs [] ∧
    checkForSessionChange
        ⟨true, some (getMessageFingerprint (mkChatMsg "09:01" "Bob" (textNode "late")))⟩
        (CNode.sep :: CNode.msg 1 (mkChatMsg "09:01" "Bob" (textNode "late")) ::
          domOfMsgs [])
        [(1, mkChatMsg "09:01" "Bob" (textNode "late"))] true =
      (⟨true, some (getMessageFingerprint (mkChatMsg "09:01" "Bob" (textNode "late")))⟩,
       CNode.sep :: CNode.msg 1 (mkChatMsg "09:01" "Bob" (textNode "late")) ::
         domOfMsgs []) :=
  ⟨(c6_amended [(0, mkChatMsg "09:00" "Alice" (textNode "early"))] []
      1 (mkChatMsg "09:01" "Bob" (textNode "late"))
      (by decide) (by decide)).1,
   (c6_amended [] [] 1 (mkChatMsg "09:01" "Bob" (textNode "late"))
      (by decide) (by decide)).2⟩

/-- The two concrete messages of the C6 counterexample. -/
def c6msgA : Node := mkChatMsg "09:00" "Alice" (textNode "early")

/-- The second concrete message; its fingerprint is the recorded one. -/
def c6msgB : Node := mkChatMsg "09:01" "Bob" (textNode "late")

/-- The counterexample batch: both messages, `c6msgB` not leading. -/
def c6batch : List (Nat × Node) := [(0, c6msgA), (1, c6msgB)]

/-- The counterexample container before the removal-signal event. -/
def c6dom : List CNode := [CNode.msg 0 c6msgA, CNode.msg 1 c6msgB]

/-- C6, counterexample: the first removal-signal event inserts exactly
one divider immediately before the recorded message, but repeating the
very same removal-signal batch inserts a second divider (before the
batch's leading message), because the recorded fingerprint was
overwritten with the leading message's — the claim's "a repeat of the
same removal-signal batch inserts no second divider" is false. -/
theorem c6_counterexample :
    (checkForSessionChange ⟨true, some (getMessageFingerprint c6msgB)⟩
        c6dom c6batch true).2 =
      [CNode.msg 0 c6msgA, CNode.sep, CNode.msg 1 c6msgB] ∧
    countSep (checkForSessionChange
        (checkForSessionChange ⟨true, some (getMessageFingerprint c6msgB)⟩
          c6dom c6batch true).1
        (checkForSessionChange ⟨true, some (getMessageFingerprint c6msgB)⟩
          c6dom c6batch true).2
        c6batch true).2 = 2 := by
  refine ⟨rfl, by decide⟩

/-! ## C8 — idempotent starts, single subscription -/

/-- `startObserver` never touches the feature flags. -/
theorem startObserver_features (found : Bool) (s : AppState) :
    (startObserver found s).features = s.features := by
  unfold startObserver
  split
  · rfl
  · split <;> rfl

/-- `startObserver` keeps the subscription count at most one. -/
theorem startObserver_obs_le (found : Bool) (s : AppState)
    (h : s.observerCount ≤ 1) : (startObserver found s).observerCount ≤ 1 := by
  unfold startObserver
  by_cases h0 : s.observerCount ≠ 0
  · rw [if_pos h0]
    exact h
  · rw [if_neg h0]
    split
    · show s.observerCount + 1 ≤ 1
      omega
    · exact h

/-- Username resolution only ever sets `username`. -/
theorem resolveUsername_eq (stored p : Option String) (s s1 : AppState)
    (h : resolveUsername stored p s = some s1) :
    s1.observerCount = s.observerCount ∧ s1.features = s.features := by
  unfold resolveUsername at h
  split at h
  · cases h
    exact ⟨rfl, rfl⟩
  · split at h
    · cases h
      exact ⟨rfl, rfl⟩
    · split at h
      · cases h
      · split at h
        · cases h
        · cases h
          exact ⟨rfl, rfl⟩

/-- `loadKeywords` only ever sets the keyword set. -/
theorem loadKeywords_eq (sk : Option (List String)) (s : AppState) :
    (loadKeywords sk s).observerCount = s.observerCount ∧
    (loadKeywords sk s).features = s.features := by
  unfold loadKeywords
  cases sk <;> exact ⟨rfl, rfl⟩

/-- `startMentionWatcher` keeps the subscription count at most one. -/
theorem startMentionWatcher_obs_le (stored p : Option String) (found : Bool)
    (s : AppState) (h : s.observerCount ≤ 1) :
    (startMentionWatcher stored p found s).observerCount ≤ 1 := by
  unfold startMentionWatcher
  split
  · exact h
  · cases hr : resolveUsername stored p s with
    | none => exact h
    | some s1 =>
      apply startObserver_obs_le
      show s1.observerCount ≤ 1
      rw [(resolveUsername_eq stored p s s1 hr).1]
      exact h

/-- `startHighlighter` keeps the subscription count at most one. -/
theorem startHighlighter_obs_le (stored p : Option String) (found : Bool)
    (s : AppState) (h : s.observerCount ≤ 1) :
    (startHighlighter stored p found s).observerCount ≤ 1 := by
  unfold startHighlighter
  split
  · exact h
  · cases hr : resolveUsername stored p s with
    | none => exact h
    | some s1 =>
      show (startObserver found _).observerCount ≤ 1
      apply startObserver_obs_le
      show s1.observerCount ≤ 1
      rw [(resolveUsername_eq stored p s s1 hr).1]
      exact h

/-- `startSeparator` keeps the subscription count at most one. -/
theorem startSeparator_obs_le (found : Bool) (s : AppState)
    (h : s.observerCount ≤ 1) :
    (startSeparator found s).observerCount ≤ 1 := by
  unfold startSeparator
  split
  · exact h
  · exact startObserver_obs_le found _ h

/-- `startMarkers` keeps the subscription count at most one. -/
theorem startMarkers_obs_le (found : Bool) (s : AppState)
    (h : s.observerCount ≤ 1) :
    (startMarkers found s).observerCount ≤ 1 := by
  unfold startMarkers
  split
  · exact h
  · show (startObserver found _).observerCount ≤ 1
    exact startObserver_obs_le found _ h

/-- `startKeywordWatcher` keeps the subscription count at most one. -/
theorem startKeywordWatcher_obs_le (sk : Option (List String))
    (p : Option String) (found : Bool) (s : AppState)
    (h : s.observerCount ≤ 1) :
    (startKeywordWatcher sk p found s).observerCount ≤ 1 := by
  unfold startKeywordWatcher
  split
  · exact h
  · have hobs : (loadKeywords sk s).observerCount ≤ 1 := by
      rw [(loadKeywords_eq sk s).1]
      exact h
    dsimp only
    by_cases he : ((loadKeywords sk s).keywords.length == 0) = true
    · rw [if_pos he]
      cases p with
      | none => exact hobs
      | some input =>
        dsimp only
        by_cases hi : input = ""
        · rw [if_pos hi]
          exact hobs
        · rw [if_neg hi]
          apply startObserver_obs_le
          exact hobs
    · rw [if_neg he]
      apply startObserver_obs_le
      exact hobs

/-- Double `startMentionWatcher` equals a single call. -/
theorem startMentionWatcher_idem (stored p : Option String) (found : Bool)
    (s : AppState) :
    startMentionWatcher stored p found (startMentionWatcher stored p found s) =
      startMentionWatcher stored p found s := by
  have key : ∀ t : AppState, t.features.mentions = true →
      startMentionWatcher stored p found t = t := by
    intro t ht
    unfold startMentionWatcher
    rw [if_pos ht]
  by_cases hm : s.features.mentions = true
  · rw [key s hm]
    exact key s hm
  · have hf : startMentionWatcher stored p found s =
        match resolveUsername stored p s with
        | none => s
        | some s1 => startObserver found
            { s1 with features := { s1.features with mentions := true } } := by
      unfold startMentionWatcher
      rw [if_neg hm]
    cases hr : resolveUsername stored p s with
    | none =>
      have hfs : startMentionWatcher stored p found s = s := by rw [hf, hr]
      rw [hfs]
      exact hfs
    | some s1 =>
      have hfs : startMentionWatcher stored p found s = startObserver found
          { s1 with features := { s1.features with mentions := true } } := by
        rw [hf, hr]
      rw [hfs]
      apply key
      rw [startObserver_features]

/-- Double `startHighlighter` equals a single call. -/
theorem startHighlighter_idem (stored p : Option String) (found : Bool)
    (s : AppState) :
    startHighlighter stored p found (startHighlighter stored p found s) =
      startHighlighter stored p found s := by
  have key : ∀ t : AppState, t.features.highlighting = true →
      startHighlighter stored p found t = t := by
    intro t ht
    unfold startHighlighter
    rw [if_pos ht]
  by_cases hm : s.features.highlighting = true
  · rw [key s hm]
    exact key s hm
  · have hf : startHighlighter stored p found s =
        match resolveUsername stored p s with
        | none => s
        | some s1 =>
          let s2 := startObserver found
            { s1 with features := { s1.features with highlighting := true } }
          { s2 with dom := highlightOwnMessages s2.features.highlighting s2.username s2.dom } := by
      unfold startHighlighter
      rw [if_neg hm]
    cases hr : resolveUsername stored p s with
    | none =>
      have hfs : startHighlighter stored p found s = s := by rw [hf, hr]
      rw [hfs]
      exact hfs
    | some s1 =>
      rw [hf, hr]
      apply key
      dsimp only
      rw [startObserver_features]

/-- Double `startSeparator` equals a single call. -/
theorem startSeparator_idem (found : Bool) (s : AppState) :
    startSeparator found (startSeparator found s) = startSeparator found s := by
  have key : ∀ t : AppState, t.features.separator = true →
      startSeparator found t = t := by
    intro t ht
    unfold startSeparator
    rw [if_pos ht]
  by_cases hm : s.features.separator = true
  · rw [key s hm]
    exact key s hm
  · apply key
    unfold startSeparator
    rw [if_neg hm]
    rw [startObserver_features]

/-- Double `startMarkers` equals a single call. -/
theorem startMarkers_idem (found : Bool) (s : AppState) :
    startMarkers found (startMarkers found s) = startMarkers found s := by
  have key : ∀ t : AppState, t.features.markers = true →
      startMarkers found t = t := by
    intro t ht
    unfold startMarkers
    rw [if_pos ht]
  by_cases hm : s.features.markers = true
  · rw [key s hm]
    exact key s hm
  · apply key
    unfold startMarkers
    rw [if_neg hm]
    dsimp only
    rw [startObserver_features]

/-- `loadKeywords` is idempotent for a fixed stored value. -/
theorem loadKeywords_idem (sk : Option (List String)) (s : AppState) :
    loadKeywords sk (loadKeywords sk s) = loadKeywords sk s := by
  unfold loadKeywords
  cases sk with
  | none => rfl
  | some ks => rfl

/-- Double `startKeywordWatcher` equals a single call. -/
theorem startKeywordWatcher_idem (sk : Option (List String)) (p : Option String)
    (found : Bool) (s : AppState) :
    startKeywordWatcher sk p found (startKeywordWatcher sk p found s) =
      startKeywordWatcher sk p found s := by
  have key : ∀ t : AppState, t.features.keywords = true →
      startKeywordWatcher sk p found t = t := by
    intro t ht
    unfold startKeywordWatcher
    rw [if_pos ht]
  have hkfalse : ∀ t : AppState, t.features.keywords ≠ true →
      ((loadKeywords sk t).features.keywords = true) = False := by
    intro t ht
    rw [(loadKeywords_eq sk t).2]
    simp [ht]
  by_cases hk : s.features.keywords = true
  · rw [key s hk]
    exact key s hk
  · have habort : ∀ t : AppState, t.features.keywords ≠ true →
        ((loadKeywords sk t).keywords.length == 0) = true →
        (p = none ∨ ∃ i, p = some i ∧ i = "") →
        startKeywordWatcher sk p found t = loadKeywords sk t := by
      intro t ht he hp
      unfold startKeywordWatcher
      rw [if_neg ht]
      dsimp only
      rw [if_pos he]
      rcases hp with hp | ⟨i, hp, hi⟩
      · rw [hp]
      · rw [hp]
        dsimp only
        rw [if_pos hi]
    by_cases he : ((loadKeywords sk s).keywords.length == 0) = true
    · cases p with
      | none =>
        have hfs : startKeywordWatcher sk (none : Option String) found s =
            loadKeywords sk s := habort s hk he (Or.inl rfl)
        rw [hfs]
        have he2 : ((loadKeywords sk (loadKeywords sk s)).keywords.length == 0) = true := by
          rw [loadKeywords_idem]
          exact he
        have := habort (loadKeywords sk s)
          (by rw [(loadKeywords_eq sk s).2]; exact hk) he2 (Or.inl rfl)
        rw [this, loadKeywords_idem]
      | some input =>
        by_cases hi : input = ""
        · have hfs : startKeywordWatcher sk (some input) found s =
              loadKeywords sk s := habort s hk he (Or.inr ⟨input, rfl, hi⟩)
          rw [hfs]
          have he2 : ((loadKeywords sk (loadKeywords sk s)).keywords.length == 0) = true := by
            rw [loadKeywords_idem]
            exact he
          have := habort (loadKeywords sk s)
            (by rw [(loadKeywords_eq sk s).2]; exact hk) he2 (Or.inr ⟨input, rfl, hi⟩)
          rw [this, loadKeywords_idem]
        · have hfs : startKeywordWatcher sk (some input) found s =
              startObserver found
                { { loadKeywords sk s with keywords := parseKeywords input } with
                  features := { (loadKeywords sk s).features with keywords := true } } := by
            unfold startKeywordWatcher
            rw [if_neg hk]
            dsimp only
            rw [if_pos he, if_neg hi]
          rw [hfs]
          apply key
          rw [startObserver_features]
    · have hfs : startKeywordWatcher sk p found s =
          startObserver found
            { loadKeywords sk s with
              features := { (loadKeywords sk s).features with keywords := true } } := by
        unfold startKeywordWatcher
        rw [if_neg hk]
        dsimp only
        rw [if_neg he]
      rw [hfs]
      apply key
      rw [startObserver_features]

/-- Every start control leaves the subscription count at most one. -/
theorem applyStart_obs_le (op : StartOp) (s : AppState)
    (h : s.observerCount ≤ 1) : (applyStart op s).observerCount ≤ 1 := by
  cases op with
  | mentions stored p found => exact startMentionWatcher_obs_le stored p found s h
  | highlighter stored p found => exact startHighlighter_obs_le stored p found s h
  | separator found => exact startSeparator_obs_le found s h
  | markers found => exact startMarkers_obs_le found s h
  | keywords sk p found => exact startKeywordWatcher_obs_le sk p found s h

/-- C8: starting is idempotent and the subscription is unique — for
every feature, a second press of its start control (with the same
stored values, prompt replies and container availability) leaves the
state exactly as after the first; and from the initial state, any
sequence of start presses leaves at most one stream subscription. -/
theorem c8_theorem :
    (∀ (op : StartOp) (s : AppState),
      applyStart op (applyStart op s) = applyStart op s) ∧
    (∀ (ops : List StartOp) (dom : List Node),
      (applyStarts ops (initState dom)).observerCount ≤ 1) := by
  constructor
  · intro op s
    cases op with
    | mentions stored p found => exact startMentionWatcher_idem stored p found s
    | highlighter stored p found => exact startHighlighter_idem stored p found s
    | separator found => exact startSeparator_idem found s
    | markers found => exact startMarkers_idem found s
    | keywords sk p found => exact startKeywordWatcher_idem sk p found s
  · intro ops dom
    suffices h : ∀ s : AppState, s.observerCount ≤ 1 →
        (applyStarts ops s).observerCount ≤ 1 by
      exact h (initState dom) (by show (0 : Nat) ≤ 1; omega)
    induction ops with
    | nil => intro s h; exact h
    | cons op ops ih =>
      intro s h
      exact ih (applyStart op s) (applyStart_obs_le op s h)

end FarmChat
